import Mathlib

/-!
Shallow embedding of `faster_whisper/tokenizer.py`: the `Tokenizer` wrapper
around an external `tokenizers.Tokenizer` (the Vocabulary Adapter), the
timestamp codec, the sequence codec (`encode`, `decode`,
`decode_with_timestamps`) and the word aligner (`split_tokens_on_unicode`,
`split_tokens_on_spaces`, `split_to_word_tokens`).

Python floats are modelled as exact rationals (`ℚ`); the only numeric
operations the embedded code performs on them are comparisons with `0` and
`30`, division by the exactly-representable-in-the-model constant `0.02`,
rounding to an integer and two-decimal formatting, all of which the rational
model reproduces for the values the claims exercise.  Machine integers do not
overflow anywhere in this code, so token ids are `Nat`.
-/

/-- Python exceptions raised by the embedded code: `ValueError` carries the
message built at the raise site; `TypeError` is raised by the interpreter
itself (message text is version dependent, so it is not modelled). -/
inductive PyError where
  | valueError (msg : String)
  | typeError
deriving DecidableEq

/-- The `Word` NamedTuple.  Python's field `end` is a Lean keyword, so it is
rendered as `stop` here; the remaining field names match the source. -/
structure Word where
  start : ℚ
  stop : ℚ
  word : String
  probability : ℚ
deriving DecidableEq

/-- The dynamically-typed argument of `Tokenizer.encode`: the `isinstance`
dispatch accepts a `str` or a `list` of `Word`. -/
inductive PyInput where
  | str (s : String)
  | words (ws : List Word)

/-- The external `tokenizers.Tokenizer` (Vocabulary Adapter).  `encode` models
`encode(text, add_special_tokens=False).ids`, `decode` models `decode(ids)`.
`token_to_id` is modelled as total: the real method returns `None` only for
strings absent from the vocabulary, and every Whisper vocabulary defines the
control tokens the embedded code looks up. -/
structure HFTokenizer where
  encode : String → List Nat
  decode : List Nat → String
  token_to_id : String → Nat

/-- The state of a constructed `Tokenizer` object (its instance attributes
after `__init__`). -/
structure Tokenizer where
  tokenizer : HFTokenizer
  without_timestamps : Bool
  max_length : Nat
  task : Option Nat
  language : Option Nat
  language_code : String

/-- The tuple `_TASKS`. -/
def _TASKS : List String := ["transcribe", "translate"]

/-- The tuple `_LANGUAGE_CODES`. -/
def _LANGUAGE_CODES : List String :=
  ["af", "am", "ar", "as", "az", "ba", "be", "bg", "bn", "bo", "br", "bs",
   "ca", "cs", "cy", "da", "de", "el", "en", "es", "et", "eu", "fa", "fi",
   "fo", "fr", "gl", "gu", "ha", "haw", "he", "hi", "hr", "ht", "hu", "hy",
   "id", "is", "it", "ja", "jw", "ka", "kk", "km", "kn", "ko", "la", "lb",
   "ln", "lo", "lt", "lv", "mg", "mi", "mk", "ml", "mn", "mr", "ms", "mt",
   "my", "ne", "nl", "nn", "no", "oc", "pa", "pl", "ps", "pt", "ro", "ru",
   "sa", "sd", "si", "sk", "sl", "sn", "so", "sq", "sr", "su", "sv", "sw",
   "ta", "te", "tg", "th", "tk", "tl", "tr", "tt", "uk", "ur", "uz", "vi",
   "yi", "yo", "zh", "yue"]

/-- Python's rendering `"%s" % x` of an `Optional[str]`: the string itself,
or the literal `None`. -/
def py_opt_str : Option String → String
  | some s => s
  | none => "None"

/-- Python's `x not in tup` for `x : Optional[str]` against a tuple of
strings (`None` is never a member). -/
def py_not_in (x : Option String) (l : List String) : Bool :=
  !(match x with
    | some s => l.contains s
    | none => false)

/-- The message of the `ValueError` raised for an invalid task. -/
def task_error_msg (task : Option String) : String :=
  "\x27" ++ py_opt_str task ++ "\x27 is not a valid task (accepted tasks: "
    ++ String.intercalate ", " _TASKS ++ ")"

/-- The message of the `ValueError` raised for an invalid language code. -/
def language_error_msg (language : Option String) : String :=
  "\x27" ++ py_opt_str language
    ++ "\x27 is not a valid language code (accepted language codes: "
    ++ String.intercalate ", " _LANGUAGE_CODES ++ ")"

/-- `Tokenizer.__init__`: validates `task` and `language` in multilingual
mode (raising `ValueError` with the exact source messages) and records the
instance attributes. -/
def tokenizer_init (tk : HFTokenizer) (multilingual : Bool)
    (task language : Option String) (without_timestamps : Bool)
    (max_length : Nat) : Except PyError Tokenizer :=
  if multilingual then
    if py_not_in task _TASKS then
      .error (.valueError (task_error_msg task))
    else if py_not_in language _LANGUAGE_CODES then
      .error (.valueError (language_error_msg language))
    else
      .ok { tokenizer := tk
            without_timestamps := without_timestamps
            max_length := max_length
            task := some (tk.token_to_id ("<|" ++ py_opt_str task ++ "|>"))
            language := some (tk.token_to_id ("<|" ++ py_opt_str language ++ "|>"))
            language_code := py_opt_str language }
  else
    .ok { tokenizer := tk
          without_timestamps := without_timestamps
          max_length := max_length
          task := none
          language := none
          language_code := "en" }

/-- The cached property `eot = tokenizer.token_to_id("<|endoftext|>")`. -/
def Tokenizer.eot (t : Tokenizer) : Nat :=
  t.tokenizer.token_to_id "<|endoftext|>"

/-- The cached property `no_timestamps = tokenizer.token_to_id("<|notimestamps|>")`. -/
def Tokenizer.no_timestamps (t : Tokenizer) : Nat :=
  t.tokenizer.token_to_id "<|notimestamps|>"

/-- The property `timestamp_begin = no_timestamps + 1`. -/
def Tokenizer.timestamp_begin (t : Tokenizer) : Nat :=
  t.no_timestamps + 1

/-- Python's ASCII whitespace characters stripped by `str.strip()` (the
Unicode-only whitespace code points never occur in the claims' data). -/
def py_is_space (c : Char) : Bool :=
  c = ' ' || c = '\t' || c = '\n' || c = '\r' || c = '\x0b' || c = '\x0c'

/-- Python's `s.strip()`. -/
def py_strip (s : String) : String :=
  String.mk (((s.toList.dropWhile py_is_space).reverse.dropWhile py_is_space).reverse)

/-- Python's `s.startswith(pat)`. -/
def py_startswith (s pat : String) : Bool :=
  pat.toList.isPrefixOf s.toList

/-- Python's substring test `needle in hay` on strings. -/
def py_in (needle hay : String) : Bool :=
  decide (needle.toList <:+: hay.toList)

/-- The constant `string.punctuation` from the Python standard library. -/
def string_punctuation : String :=
  "!\"#$%&\x27()*+,-./:;<=>?@[\\]^_\x60\x7b|\x7d~"

/-- The Unicode replacement character `"�"`. -/
def replacement_char : Char := '�'

/-- Python's `l[: j]` slicing with a possibly negative bound `j`. -/
def py_slice_to (l : List α) (j : ℤ) : List α :=
  if 0 ≤ j then l.take j.toNat else l.take (l.length - (-j).toNat)

/-- A natural number below 100 rendered as exactly two digits, as in the
fractional part of Python's `f"-:.2f-"` formatting. -/
def pad2 (n : Nat) : String :=
  if n < 10 then "0" ++ toString n else toString n

/-- Python's `f"-v:.2f-"` for `v` a nonnegative multiple of `0.01`, applied to
`v = h * 0.01`: the integral part, a dot, and the two-digit fractional part.
All call sites in the embedded code format a nonnegative integer multiple of
`0.02`, for which this function is exact. -/
def format_2f_hundredths (h : Nat) : String :=
  toString (h / 100) ++ "." ++ pad2 (h % 100)

/-- Python 3's `round` on an exact rational: nearest integer, ties to the
even neighbour. -/
def pyRound (q : ℚ) : ℤ :=
  let f := ⌊q⌋
  let r := q - (f : ℚ)
  if r < 1/2 then f
  else if 1/2 < r then f + 1
  else if f % 2 = 0 then f else f + 1

/-- `Tokenizer.timestamp_to_token`: range-checks the timestamp, quantizes it
with `round(timestamp / 0.02) * 0.02` and formats the quantized value with
two decimal places.  In the guarded branch the quantized value is the
nonnegative multiple `n * 0.02` of `0.02` with `n = round(timestamp / 0.02)`,
so the `.2f` rendering is `format_2f_hundredths (2 * n)`. -/
def Tokenizer.timestamp_to_token (_self : Tokenizer) (timestamp : ℚ) :
    Except PyError String :=
  if timestamp < 0 ∨ 30 < timestamp then
    .error (.valueError "Timestamp must be between 0 and 30")
  else
    .ok ("<|" ++ format_2f_hundredths (2 * (pyRound (timestamp / 0.02)).toNat) ++ "|>")

/-- The timestamp literal `f"<|-(token - timestamp_begin) * 0.02:.2f-|>"`
emitted by `decode_with_timestamps` for a token id `≥ timestamp_begin`. -/
def Tokenizer.timestamp_literal (t : Tokenizer) (token : Nat) : String :=
  "<|" ++ format_2f_hundredths (2 * (token - t.timestamp_begin)) ++ "|>"

/-- One entry of the `outputs` list of `decode_with_timestamps`: either a
still-raw run of text tokens or an already-formatted timestamp literal. -/
inductive Run where
  | txt (ids : List Nat)
  | lit (s : String)

/-- The loop body of `decode_with_timestamps`.  The Python list `outputs`
always ends with a list (a fresh `[]` is pushed right after each timestamp
literal), so it is represented as the pair of the finished runs and that
trailing list: `outputs = done ++ [current]`. -/
def dwt_step (t : Tokenizer) (st : List Run × List Nat) (token : Nat) :
    List Run × List Nat :=
  if t.timestamp_begin ≤ token then
    (st.1 ++ [Run.txt st.2, Run.lit (t.timestamp_literal token)], [])
  else
    (st.1, st.2 ++ [token])

/-- Rendering of one `outputs` entry inside the final `"".join(...)`:
a string is kept, a token run is decoded by the Vocabulary Adapter. -/
def render_run (t : Tokenizer) : Run → String
  | .txt ids => t.tokenizer.decode ids
  | .lit s => s

/-- `Tokenizer.decode_with_timestamps`. -/
def Tokenizer.decode_with_timestamps (t : Tokenizer) (tokens : List Nat) : String :=
  let st := tokens.foldl (dwt_step t) ([], [])
  String.join ((st.1 ++ [Run.txt st.2]).map (render_run t))

/-- `Tokenizer.decode`: drops every token id `≥ eot` and decodes the rest. -/
def Tokenizer.decode (t : Tokenizer) (tokens : List Nat) : String :=
  t.tokenizer.decode (tokens.filter (fun token => token < t.eot))

/-- `Tokenizer.encode_with_timestamps`.  The source body evaluates
`"".join(map(encode_words))` (or the `" ".join` twin): `map` is called
without its iterable argument, so the interpreter raises `TypeError` before
anything else happens, whichever branch of the language test is taken. -/
def Tokenizer.encode_with_timestamps (_t : Tokenizer) (_words : List Word) :
    Except PyError (List Nat) :=
  .error .typeError

/-- `Tokenizer.encode_without_timestamps`: same `map`-without-iterable
`TypeError` as `encode_with_timestamps`. -/
def Tokenizer.encode_without_timestamps (_t : Tokenizer) (_words : List Word) :
    Except PyError (List Nat) :=
  .error .typeError

/-- `Tokenizer.encode`: the `str` branch strips the text, prepends a space,
encodes without special tokens, truncates with `[: max_length // 2 - 1]`
whenever the length is `≥ max_length // 2`, and prepends `timestamp_begin`
unless timestamps are disabled; the `list` branch dispatches on
`without_timestamps`. -/
def Tokenizer.encode (t : Tokenizer) (text : PyInput) : Except PyError (List Nat) :=
  match text with
  | .str s =>
      let toks := t.tokenizer.encode (" " ++ py_strip s)
      let toks :=
        if t.max_length / 2 ≤ toks.length then
          py_slice_to toks ((t.max_length / 2 : ℤ) - 1)
        else toks
      .ok (if t.without_timestamps then toks else t.timestamp_begin :: toks)
  | .words ws =>
      if t.without_timestamps then t.encode_without_timestamps ws
      else t.encode_with_timestamps ws

/-- The loop state of `split_tokens_on_unicode`: the flushed words, their
token groups, the still-buffered tokens and the cumulative character offset
into the full decode. -/
structure SplitState where
  words : List String
  word_tokens : List (List Nat)
  current_tokens : List Nat
  unicode_offset : Nat

/-- The loop body of `split_tokens_on_unicode`: append the token to the
buffer, decode the buffer, locate the first replacement character (Python's
`str.index` inside `try/except`), and flush the buffer as a chunk when there
is none or when the full decode carries the same replacement character at the
offset-adjusted position (Python's short-circuit
`idx < len(decoded_full) and decoded_full[idx] == replacement_char`
is the `Option`-valued lookup here). -/
def split_unicode_step (t : Tokenizer) (decoded_full : String)
    (st : SplitState) (token : Nat) : SplitState :=
  let current_tokens := st.current_tokens ++ [token]
  let decoded := t.decode_with_timestamps current_tokens
  let flush :=
    match decoded.toList.findIdx? (fun c => c = replacement_char) with
    | none => true
    | some i => decoded_full.toList.get? (i + st.unicode_offset) == some replacement_char
  if flush then
    { words := st.words ++ [decoded]
      word_tokens := st.word_tokens ++ [current_tokens]
      current_tokens := []
      unicode_offset := st.unicode_offset + decoded.length }
  else
    { st with current_tokens := current_tokens }

/-- The full loop of `split_tokens_on_unicode`, starting from the empty
state, with `decoded_full = decode_with_timestamps(tokens)`. -/
def split_unicode_fold (t : Tokenizer) (tokens : List Nat) : SplitState :=
  tokens.foldl (split_unicode_step t (t.decode_with_timestamps tokens)) ⟨[], [], [], 0⟩

/-- `Tokenizer.split_tokens_on_unicode`: the loop's flushed words and token
groups (tokens still buffered when the loop ends are not returned). -/
def Tokenizer.split_tokens_on_unicode (t : Tokenizer) (tokens : List Nat) :
    List String × List (List Nat) :=
  ((split_unicode_fold t tokens).words, (split_unicode_fold t tokens).word_tokens)

/-- The loop body of `split_tokens_on_spaces`: a chunk starts a new word when
its first token is special (`subword_tokens[0] >= eot`; the unicode splitter
only produces nonempty groups, rendered by `headD`), or its text starts with
a space, or its stripped text passes Python's substring test
`subword.strip() in string.punctuation`, or no word exists yet; otherwise it
extends the last word. -/
def merge_step (t : Tokenizer) (acc : List String × List (List Nat))
    (chunk : String × List Nat) : List String × List (List Nat) :=
  let subword := chunk.1
  let subword_tokens := chunk.2
  let special := t.eot ≤ subword_tokens.headD 0
  let with_space := py_startswith subword " "
  let punctuation := py_in (py_strip subword) string_punctuation
  if special || with_space || punctuation || acc.1.isEmpty then
    (acc.1 ++ [subword], acc.2 ++ [subword_tokens])
  else
    (acc.1.dropLast ++ [acc.1.getLastD "" ++ subword],
     acc.2.dropLast ++ [acc.2.getLastD [] ++ subword_tokens])

/-- The merge loop of `split_tokens_on_spaces` over a chunk list. -/
def merge_fold (t : Tokenizer) (chunks : List (String × List Nat)) :
    List String × List (List Nat) :=
  chunks.foldl (merge_step t) ([], [])

/-- `Tokenizer.split_tokens_on_spaces`: unicode chunks, then the
space/punctuation merge over `zip(subwords, subword_tokens_list)`. -/
def Tokenizer.split_tokens_on_spaces (t : Tokenizer) (tokens : List Nat) :
    List String × List (List Nat) :=
  let p := t.split_tokens_on_unicode tokens
  merge_fold t (p.1.zip p.2)

/-- The whitespace-free language set checked by `split_to_word_tokens`. -/
def nospace_languages : List String := ["zh", "ja", "th", "lo", "my", "yue"]

/-- `Tokenizer.split_to_word_tokens`: unicode splitting alone for the
whitespace-free languages, unicode splitting plus space merge otherwise. -/
def Tokenizer.split_to_word_tokens (t : Tokenizer) (tokens : List Nat) :
    List String × List (List Nat) :=
  if nospace_languages.contains t.language_code then
    t.split_tokens_on_unicode tokens
  else
    t.split_tokens_on_spaces tokens

/-- A vocabulary lookup used by the concrete test adapters below:
`end-of-text` is id 100 and `no-timestamps` is id 999, so
`timestamp_begin = 1000`. -/
def test_vocab_ids (s : String) : Nat :=
  if s = "<|endoftext|>" then 100
  else if s = "<|notimestamps|>" then 999
  else 0

/-- Adapter whose decode leaves token 2 an incomplete character (`"�"`) on
its own but completes it inside the pair `[1, 2]`. -/
def incomplete_tail_adapter : HFTokenizer where
  encode := fun _ => []
  decode := fun ids =>
    if ids = [1] then "a"
    else if ids = [2] then "�"
    else if ids = [1, 2] then "ab"
    else ""
  token_to_id := test_vocab_ids

/-- Tokenizer over `incomplete_tail_adapter` in a space-delimited language. -/
def incomplete_tail_tok : Tokenizer :=
  { tokenizer := incomplete_tail_adapter
    without_timestamps := false
    max_length := 448
    task := none
    language := none
    language_code := "en" }

/-- Adapter decoding token 2 to the multi-character punctuation chunk `"..."`. -/
def ellipsis_adapter : HFTokenizer where
  encode := fun _ => []
  decode := fun ids =>
    if ids = [1] then "a"
    else if ids = [2] then "..."
    else if ids = [1, 2] then "a..."
    else ""
  token_to_id := test_vocab_ids

/-- Tokenizer over `ellipsis_adapter` in a space-delimited language. -/
def ellipsis_tok : Tokenizer :=
  { tokenizer := ellipsis_adapter
    without_timestamps := false
    max_length := 448
    task := none
    language := none
    language_code := "en" }

/-- Adapter encoding the prompt `" ab"` to exactly two token ids. -/
def two_token_adapter : HFTokenizer where
  encode := fun s => if s = " ab" then [7, 8] else []
  decode := fun _ => ""
  token_to_id := test_vocab_ids

/-- Tokenizer with `max_length = 4` (so `max_length // 2 = 2`) and
timestamps disabled, over `two_token_adapter`. -/
def short_context_tok : Tokenizer :=
  { tokenizer := two_token_adapter
    without_timestamps := true
    max_length := 4
    task := none
    language := none
    language_code := "en" }

/-- Adapter with trivial encode/decode, for claims that only exercise the
special-token ids. -/
def plain_adapter : HFTokenizer where
  encode := fun _ => []
  decode := fun ids => if ids = [1, 2] then "hi" else ""
  token_to_id := test_vocab_ids

/-- Tokenizer over `plain_adapter` with timestamps enabled. -/
def plain_tok : Tokenizer :=
  { tokenizer := plain_adapter
    without_timestamps := false
    max_length := 448
    task := none
    language := none
    language_code := "en" }

/-- Whether a call returned normally (`Except.ok`) rather than raising. -/
def ok_result : Except PyError String → Bool
  | .ok _ => true
  | .error _ => false

theorem merge_fold_append (t : Tokenizer) (pre : List (String × List Nat))
    (c : String × List Nat) :
    merge_fold t (pre ++ [c]) = merge_step t (merge_fold t pre) c := by
  simp [merge_fold, List.foldl_append]

theorem merge_step_words_ne (t : Tokenizer) (acc : List String × List (List Nat))
    (c : String × List Nat) : (merge_step t acc c).1 ≠ [] := by
  simp only [merge_step]
  split <;> simp

theorem merge_fold_aux_words_ne (t : Tokenizer) :
    ∀ (cs : List (String × List Nat)) (acc : List String × List (List Nat)),
      acc.1 ≠ [] → (cs.foldl (merge_step t) acc).1 ≠ [] := by
  intro cs
  induction cs with
  | nil => intro acc h; simpa using h
  | cons c cs ih =>
      intro acc _
      rw [List.foldl_cons]
      exact ih _ (merge_step_words_ne t acc c)

theorem merge_fold_words_eq_nil_iff (t : Tokenizer) (cs : List (String × List Nat)) :
    (merge_fold t cs).1 = [] ↔ cs = [] := by
  cases cs with
  | nil => simp [merge_fold]
  | cons c cs =>
      simp only [merge_fold, List.foldl_cons]
      constructor
      · intro h
        exact absurd h (merge_fold_aux_words_ne t cs _ (merge_step_words_ne t ([], []) c))
      · intro h; cases h

theorem merge_step_lengths (t : Tokenizer) (acc : List String × List (List Nat))
    (c : String × List Nat) (h : acc.1.length = acc.2.length) :
    (merge_step t acc c).1.length = (merge_step t acc c).2.length := by
  simp only [merge_step]
  split
  · simp [h]
  · simp [h]

theorem merge_fold_lengths (t : Tokenizer) (cs : List (String × List Nat)) :
    (merge_fold t cs).1.length = (merge_fold t cs).2.length := by
  have : ∀ (l : List (String × List Nat)) (acc : List String × List (List Nat)),
      acc.1.length = acc.2.length →
      (l.foldl (merge_step t) acc).1.length = (l.foldl (merge_step t) acc).2.length := by
    intro l
    induction l with
    | nil => intro acc h; simpa using h
    | cons c cs ih =>
        intro acc h
        rw [List.foldl_cons]
        exact ih _ (merge_step_lengths t acc c h)
  exact this cs ([], []) rfl

theorem merge_fold_snoc_new (t : Tokenizer) (pre : List (String × List Nat))
    (sw : String) (ts : List Nat)
    (h : t.eot ≤ ts.headD 0 ∨ py_startswith sw " " = true
      ∨ py_in (py_strip sw) string_punctuation = true ∨ pre = []) :
    merge_fold t (pre ++ [(sw, ts)]) =
      ((merge_fold t pre).1 ++ [sw], (merge_fold t pre).2 ++ [ts]) := by
  rw [merge_fold_append]
  have hcond : (decide (t.eot ≤ ts.headD 0) || py_startswith sw " "
      || py_in (py_strip sw) string_punctuation || (merge_fold t pre).1.isEmpty) = true := by
    rcases h with h | h | h | h
    · rw [decide_eq_true h]
      simp
    · rw [h]
      simp
    · rw [h]
      simp
    · subst h
      rw [show (merge_fold t ([] : List (String × List Nat))).1.isEmpty = true from rfl]
      simp
  simp only [merge_step, hcond, if_true]

theorem merge_fold_snoc_extend (t : Tokenizer) (pre : List (String × List Nat))
    (sw : String) (ts : List Nat)
    (h1 : ¬ t.eot ≤ ts.headD 0) (h2 : py_startswith sw " " = false)
    (h3 : py_in (py_strip sw) string_punctuation = false) (h4 : pre ≠ []) :
    merge_fold t (pre ++ [(sw, ts)]) =
      ((merge_fold t pre).1.dropLast ++ [(merge_fold t pre).1.getLastD "" ++ sw],
       (merge_fold t pre).2.dropLast ++ [(merge_fold t pre).2.getLastD [] ++ ts]) := by
  rw [merge_fold_append]
  simp only [merge_step]
  have hne : (merge_fold t pre).1 ≠ [] := by
    rw [Ne, merge_fold_words_eq_nil_iff]; exact h4
  have hemp : (merge_fold t pre).1.isEmpty = false := by
    simpa [List.isEmpty_iff] using hne
  have hcond : (decide (t.eot ≤ ts.headD 0) || py_startswith sw " "
      || py_in (py_strip sw) string_punctuation || (merge_fold t pre).1.isEmpty) = false := by
    rw [decide_eq_false h1, h2, h3, hemp]
    rfl
  simp only [merge_step, hcond]
  simp

theorem flatten_dropLast_getLastD (l : List (List Nat)) (x : List Nat) :
    (l.dropLast ++ [l.getLastD [] ++ x]).flatten = l.flatten ++ x := by
  rcases List.eq_nil_or_concat l with h | ⟨L, b, h⟩
  · subst h; simp
  · subst h
    simp [List.concat_eq_append, List.dropLast_concat, List.getLastD_concat]

theorem merge_fold_flatten (t : Tokenizer) (cs : List (String × List Nat)) :
    (merge_fold t cs).2.flatten = (cs.map Prod.snd).flatten := by
  have key : ∀ (l : List (String × List Nat)) (acc : List String × List (List Nat)),
      (l.foldl (merge_step t) acc).2.flatten = acc.2.flatten ++ (l.map Prod.snd).flatten := by
    intro l
    induction l with
    | nil => intro acc; simp
    | cons c cs ih =>
        intro acc
        rw [List.foldl_cons, ih]
        have hstep : (merge_step t acc c).2.flatten = acc.2.flatten ++ c.2 := by
          simp only [merge_step]
          split
          · simp
          · exact flatten_dropLast_getLastD acc.2 c.2
        rw [hstep]
        simp
  simpa using key cs ([], [])

theorem split_unicode_foldl_flatten (t : Tokenizer) (full : String) :
    ∀ (ts : List Nat) (st : SplitState),
      (ts.foldl (split_unicode_step t full) st).word_tokens.flatten
          ++ (ts.foldl (split_unicode_step t full) st).current_tokens
        = st.word_tokens.flatten ++ st.current_tokens ++ ts := by
  intro ts
  induction ts with
  | nil => intro st; simp
  | cons tk ts ih =>
      intro st
      rw [List.foldl_cons, ih]
      have hstep : (split_unicode_step t full st tk).word_tokens.flatten
          ++ (split_unicode_step t full st tk).current_tokens
          = st.word_tokens.flatten ++ st.current_tokens ++ [tk] := by
        simp only [split_unicode_step]
        split
        · simp
        · simp
      rw [hstep]
      simp

theorem split_unicode_foldl_lengths (t : Tokenizer) (full : String) :
    ∀ (ts : List Nat) (st : SplitState),
      st.words.length = st.word_tokens.length →
      (ts.foldl (split_unicode_step t full) st).words.length
        = (ts.foldl (split_unicode_step t full) st).word_tokens.length := by
  intro ts
  induction ts with
  | nil => intro st h; simpa using h
  | cons tk ts ih =>
      intro st h
      rw [List.foldl_cons]
      apply ih
      simp only [split_unicode_step]
      split
      · simp [h]
      · simpa using h

theorem split_unicode_fold_lengths (t : Tokenizer) (tokens : List Nat) :
    (split_unicode_fold t tokens).words.length
      = (split_unicode_fold t tokens).word_tokens.length := by
  exact split_unicode_foldl_lengths t _ tokens ⟨[], [], [], 0⟩ rfl

theorem py_in_eq_true_of (s hay : String) (h : s.toList <:+: hay.toList) :
    py_in s hay = true :=
  decide_eq_true h

theorem dwt_foldl_below (t : Tokenizer) :
    ∀ (ts : List Nat) (done : List Run) (cur : List Nat),
      (∀ x ∈ ts, x < t.timestamp_begin) →
      ts.foldl (dwt_step t) (done, cur) = (done, cur ++ ts) := by
  intro ts
  induction ts with
  | nil => intro done cur _; simp
  | cons a ts ih =>
      intro done cur h
      rw [List.foldl_cons]
      have ha : ¬ t.timestamp_begin ≤ a :=
        Nat.not_le.mpr (h a (List.mem_cons_self a ts))
      have hstep : dwt_step t (done, cur) a = (done, cur ++ [a]) := by
        simp [dwt_step, ha]
      rw [hstep, ih done (cur ++ [a]) (fun x hx => h x (List.mem_cons_of_mem a hx))]
      simp

/-- C10: on a token sequence made only of ids strictly below `end-of-text`
(with the vocabulary layout placing `timestamp_begin` at or above
`end-of-text`, as the data model fixes), `decode` and
`decode_with_timestamps` agree and both return the Vocabulary Adapter's
decode of the whole sequence. -/
theorem claim10_decode_agree (t : Tokenizer) (tokens : List Nat)
    (hlayout : t.eot ≤ t.timestamp_begin) (hx : ∀ x ∈ tokens, x < t.eot) :
    t.decode tokens = t.tokenizer.decode tokens
      ∧ t.decode_with_timestamps tokens = t.tokenizer.decode tokens := by
  have hfilter : tokens.filter (fun token => token < t.eot) = tokens :=
    List.filter_eq_self.mpr (fun a ha => by simpa using hx a ha)
  constructor
  · simp [Tokenizer.decode, hfilter]
  · have hfold := dwt_foldl_below t tokens [] []
      (fun x hxm => lt_of_lt_of_le (hx x hxm) hlayout)
    simp [Tokenizer.decode_with_timestamps, hfold, render_run, String.join]

/-- Witness for C10 at a concrete tokenizer and token sequence. -/
theorem claim10_decode_agree_witness :
    plain_tok.decode [1, 2] = plain_tok.tokenizer.decode [1, 2]
      ∧ plain_tok.decode_with_timestamps [1, 2] = plain_tok.tokenizer.decode [1, 2] :=
  claim10_decode_agree plain_tok [1, 2] (by decide) (by decide)

theorem py_slice_to_nil (j : ℤ) : py_slice_to ([] : List Nat) j = [] := by
  unfold py_slice_to
  split <;> simp

/-- C5: when the Vocabulary Adapter encodes a single space to no tokens and
timestamps are enabled, `encode("")` returns exactly `[timestamp_begin]`. -/
theorem claim5_empty_prompt (t : Tokenizer) (hsp : t.tokenizer.encode " " = [])
    (hwt : t.without_timestamps = false) :
    t.encode (.str "") = .ok [t.timestamp_begin] := by
  simp only [Tokenizer.encode]
  rw [show (" " ++ py_strip "" : String) = " " from rfl, hsp]
  rw [py_slice_to_nil]
  simp [hwt]

/-- Witness for C5 at a concrete tokenizer. -/
theorem claim5_empty_prompt_witness :
    Tokenizer.encode plain_tok (.str "") = .ok [plain_tok.timestamp_begin] :=
  claim5_empty_prompt plain_tok rfl rfl

/-- C4 (amended): the string branch of `encode` strips the prompt, prepends
one space, encodes it through the adapter, truncates to the first
`max_length / 2 - 1` tokens whenever the length is at least `max_length / 2`
(so a result of length exactly `max_length / 2` is truncated as well), and
prepends `timestamp_begin` unless timestamps are disabled. -/
theorem claim4_truncation (t : Tokenizer) (s : String) (h2 : 2 ≤ t.max_length) :
    t.encode (.str s) = .ok
      (let raw := t.tokenizer.encode (" " ++ py_strip s)
       let kept := if t.max_length / 2 ≤ raw.length
         then raw.take (t.max_length / 2 - 1) else raw
       if t.without_timestamps then kept else t.timestamp_begin :: kept) := by
  have hpos : 1 ≤ t.max_length / 2 := (Nat.one_le_div_iff (by norm_num)).mpr h2
  have hslice : py_slice_to (t.tokenizer.encode (" " ++ py_strip s))
      ((t.max_length / 2 : ℤ) - 1)
      = (t.tokenizer.encode (" " ++ py_strip s)).take (t.max_length / 2 - 1) := by
    unfold py_slice_to
    rw [if_pos (by omega : (0 : ℤ) ≤ (t.max_length / 2 : ℤ) - 1)]
    congr 1
    omega
  simp only [Tokenizer.encode, hslice]

/-- Witness for C4: the amended truncation rule evaluated at a tokenizer
with `max_length = 4` and a prompt encoding to exactly two tokens. -/
theorem claim4_truncation_witness :
    Tokenizer.encode short_context_tok (.str "ab") = .ok [7] :=
  (claim4_truncation short_context_tok "ab" (by decide)).trans rfl

/-- C4 counterexample: with `max_length = 4` the encoded prompt has length
exactly `max_length / 2 = 2`, yet the result is truncated to one token,
where the claim promises it is returned untruncated. -/
theorem claim4_counterexample :
    Tokenizer.encode short_context_tok (.str "ab") = .ok [7]
      ∧ (short_context_tok.tokenizer.encode (" " ++ py_strip "ab")).length
          = short_context_tok.max_length / 2 :=
  ⟨rfl, rfl⟩

/-- C2: calling `encode` on a (nonempty) list of words raises `TypeError`
under either timestamp setting — `encode_with_timestamps` and
`encode_without_timestamps` call `map` without its iterable argument and
never reach the Vocabulary Adapter. -/
theorem claim2_word_encode_raises :
    Tokenizer.encode plain_tok (.words [⟨0, 1, "hi", 1⟩]) = .error .typeError
      ∧ Tokenizer.encode short_context_tok (.words [⟨0, 1, "hi", 1⟩]) = .error .typeError :=
  ⟨rfl, rfl⟩

/-- C6: `timestamp_to_token` raises `ValueError` exactly for arguments
outside `[0, 30]`; in particular it fails at `-0.001` and `30.001` and
succeeds at `0` and `30`. -/
theorem claim6_timestamp_range (t : Tokenizer) :
    (∀ q : ℚ, t.timestamp_to_token q
        = .error (.valueError "Timestamp must be between 0 and 30")
      ↔ (q < 0 ∨ 30 < q))
    ∧ ok_result (t.timestamp_to_token (-0.001)) = false
    ∧ ok_result (t.timestamp_to_token 30.001) = false
    ∧ ok_result (t.timestamp_to_token 0) = true
    ∧ ok_result (t.timestamp_to_token 30) = true := by
  have hiff : ∀ q : ℚ, t.timestamp_to_token q
      = .error (.valueError "Timestamp must be between 0 and 30")
      ↔ (q < 0 ∨ 30 < q) := by
    intro q
    unfold Tokenizer.timestamp_to_token
    split
    · next h => simp [h]
    · next h => simp [h]
  have hok : ∀ q : ℚ, ¬(q < 0 ∨ 30 < q) → ok_result (t.timestamp_to_token q) = true := by
    intro q h
    unfold Tokenizer.timestamp_to_token
    rw [if_neg h]
    rfl
  have herr : ∀ q : ℚ, (q < 0 ∨ 30 < q) → ok_result (t.timestamp_to_token q) = false := by
    intro q h
    rw [(hiff q).mpr h]
    rfl
  exact ⟨hiff, herr _ (Or.inl (by norm_num)), herr _ (Or.inr (by norm_num)),
    hok _ (by norm_num), hok _ (by norm_num)⟩

/-- C8: in multilingual mode an invalid task fails with a `ValueError` whose
message quotes the offending value and lists the accepted tasks; with a
valid task an invalid language fails likewise with the accepted language
codes; in non-multilingual mode construction succeeds with task and
language ids unset and `language_code = "en"`. -/
theorem claim8_construction (tk : HFTokenizer) (task language : Option String)
    (wt : Bool) (maxlen : Nat) :
    (py_not_in task _TASKS = true →
      tokenizer_init tk true task language wt maxlen
          = .error (.valueError (task_error_msg task))
        ∧ py_in (py_opt_str task) (task_error_msg task) = true
        ∧ py_in (String.intercalate ", " _TASKS) (task_error_msg task) = true)
    ∧ (py_not_in task _TASKS = false → py_not_in language _LANGUAGE_CODES = true →
      tokenizer_init tk true task language wt maxlen
          = .error (.valueError (language_error_msg language))
        ∧ py_in (py_opt_str language) (language_error_msg language) = true
        ∧ py_in (String.intercalate ", " _LANGUAGE_CODES) (language_error_msg language) = true)
    ∧ (tokenizer_init tk false task language wt maxlen).map
        (fun tok => (tok.task, tok.language, tok.language_code)) = .ok (none, none, "en") := by
  refine ⟨?_, ?_, ?_⟩
  · intro ht
    refine ⟨by simp [tokenizer_init, ht], ?_, ?_⟩
    · apply py_in_eq_true_of
      unfold task_error_msg
      refine ⟨"\x27".toList, ("\x27 is not a valid task (accepted tasks: "
        ++ String.intercalate ", " _TASKS ++ ")").toList, ?_⟩
      simp [String.toList, String.data_append]
    · apply py_in_eq_true_of
      unfold task_error_msg
      refine ⟨("\x27" ++ py_opt_str task
        ++ "\x27 is not a valid task (accepted tasks: ").toList, ")".toList, ?_⟩
      simp [String.toList, String.data_append]
  · intro ht hl
    refine ⟨by simp [tokenizer_init, ht, hl], ?_, ?_⟩
    · apply py_in_eq_true_of
      unfold language_error_msg
      refine ⟨"\x27".toList, ("\x27 is not a valid language code (accepted language codes: "
        ++ String.intercalate ", " _LANGUAGE_CODES ++ ")").toList, ?_⟩
      simp [String.toList, String.data_append]
    · apply py_in_eq_true_of
      unfold language_error_msg
      refine ⟨("\x27" ++ py_opt_str language
        ++ "\x27 is not a valid language code (accepted language codes: ").toList,
        ")".toList, ?_⟩
      simp [String.toList, String.data_append]
  · simp [tokenizer_init, Except.map]

/-- Witness for C8: the `"summarize"` task is rejected with the exact
message of the claim's scenario, an unknown language code is rejected, and
non-multilingual construction succeeds with unset ids and English. -/
theorem claim8_construction_witness :
    tokenizer_init plain_adapter true (some "summarize") (some "en") false 448
        = .error (.valueError
          "\x27summarize\x27 is not a valid task (accepted tasks: transcribe, translate)")
      ∧ tokenizer_init plain_adapter true (some "transcribe") (some "xx") false 448
        = .error (.valueError (language_error_msg (some "xx")))
      ∧ (tokenizer_init plain_adapter false none none false 448).map
          (fun tok => (tok.task, tok.language, tok.language_code)) = .ok (none, none, "en") := by
  refine ⟨?_, ?_, ?_⟩
  · exact (((claim8_construction plain_adapter (some "summarize") (some "en") false 448).1
      (by decide)).1).trans rfl
  · exact ((claim8_construction plain_adapter (some "transcribe") (some "xx") false 448).2.1
      (by decide) (by decide)).1
  · exact (claim8_construction plain_adapter none none false 448).2.2

/-- C3 (amended): in the merge loop of `split_tokens_on_spaces`, a chunk is
emitted as a new word exactly when its first token id is `≥ end-of-text`, or
its text starts with a space, or its stripped text passes Python's substring
test against `string.punctuation` (any single punctuation character or the
empty string, but not a multi-character run such as `"..."`), or it is the
first chunk; otherwise its text and tokens extend the preceding word. -/
theorem claim3_word_boundary (t : Tokenizer) (pre : List (String × List Nat))
    (sw : String) (ts : List Nat) :
    (merge_fold t (pre ++ [(sw, ts)])
        = ((merge_fold t pre).1 ++ [sw], (merge_fold t pre).2 ++ [ts])
      ↔ (t.eot ≤ ts.headD 0 ∨ py_startswith sw " " = true
        ∨ py_in (py_strip sw) string_punctuation = true ∨ pre = []))
    ∧ (¬(t.eot ≤ ts.headD 0 ∨ py_startswith sw " " = true
        ∨ py_in (py_strip sw) string_punctuation = true ∨ pre = []) →
      merge_fold t (pre ++ [(sw, ts)])
        = ((merge_fold t pre).1.dropLast ++ [(merge_fold t pre).1.getLastD "" ++ sw],
           (merge_fold t pre).2.dropLast ++ [(merge_fold t pre).2.getLastD [] ++ ts])) := by
  have split_neg : ¬(t.eot ≤ ts.headD 0 ∨ py_startswith sw " " = true
      ∨ py_in (py_strip sw) string_punctuation = true ∨ pre = []) →
      (¬ t.eot ≤ ts.headD 0) ∧ py_startswith sw " " = false
        ∧ py_in (py_strip sw) string_punctuation = false ∧ pre ≠ [] := by
    intro h
    push_neg at h
    exact ⟨Nat.not_le.mpr h.1, by simpa [Bool.not_eq_true] using h.2.1,
      by simpa [Bool.not_eq_true] using h.2.2.1, h.2.2.2⟩
  constructor
  · constructor
    · intro heq
      by_contra hnc
      obtain ⟨h1, h2, h3, h4⟩ := split_neg hnc
      have hext := merge_fold_snoc_extend t pre sw ts h1 h2 h3 h4
      rw [heq] at hext
      have hlen := congrArg (fun p => p.1.length) hext
      have hne : (merge_fold t pre).1 ≠ [] := by
        rw [Ne, merge_fold_words_eq_nil_iff]; exact h4
      have hpos : 0 < (merge_fold t pre).1.length := List.length_pos.mpr hne
      simp [List.length_dropLast] at hlen
      omega
    · exact merge_fold_snoc_new t pre sw ts
  · intro hnc
    obtain ⟨h1, h2, h3, h4⟩ := split_neg hnc
    exact merge_fold_snoc_extend t pre sw ts h1 h2 h3 h4

/-- Witness for C3: a non-special, non-space, non-punctuation chunk after an
existing word extends it, and the same chunk as the first chunk opens a word. -/
theorem claim3_word_boundary_witness :
    merge_fold plain_tok [("a", [1]), ("b", [2])] = (["ab"], [[1, 2]])
      ∧ merge_fold plain_tok [("b", [2])] = (["b"], [[2]]) := by
  constructor
  · have h := (claim3_word_boundary plain_tok [("a", [1])] "b" [2]).2 (by decide)
    exact h.trans rfl
  · have h := (claim3_word_boundary plain_tok [] "b" [2]).1.mpr (by decide)
    exact h.trans rfl

/-- C3 counterexample: the chunk `"..."` consists solely of ASCII
punctuation characters, is not special, has no leading space and is not the
first chunk, yet `split_tokens_on_spaces` merges it into the preceding word
`"a"` instead of starting a new word — Python's `in` performs a substring
test and `"..."` is not a substring of `string.punctuation`. -/
theorem claim3_counterexample :
    ellipsis_tok.split_tokens_on_unicode [1, 2] = (["a", "..."], [[1], [2]])
      ∧ ("...".toList.all fun c => string_punctuation.toList.contains c) = true
      ∧ ellipsis_tok.split_tokens_on_spaces [1, 2] = (["a..."], [[1, 2]]) := by
  refine ⟨by decide, by decide, by decide⟩

/-- C9: a chunk whose decoded text strips to the empty string passes the
punctuation membership test (the empty string is a substring of every
string), so it always starts a new word and never extends the previous one. -/
theorem claim9_empty_chunk (t : Tokenizer) (pre : List (String × List Nat))
    (sw : String) (ts : List Nat) (h : py_strip sw = "") :
    py_in (py_strip sw) string_punctuation = true
      ∧ merge_fold t (pre ++ [(sw, ts)])
        = ((merge_fold t pre).1 ++ [sw], (merge_fold t pre).2 ++ [ts]) := by
  have hp : py_in (py_strip sw) string_punctuation = true := by
    rw [h]
    exact py_in_eq_true_of "" string_punctuation List.nil_infix
  exact ⟨hp, merge_fold_snoc_new t pre sw ts (Or.inr (Or.inr (Or.inl hp)))⟩

/-- Witness for C9: the whitespace-only chunk `" \t"` (stripping to empty)
starts a new word after an existing one. -/
theorem claim9_empty_chunk_witness :
    py_in (py_strip " \t") string_punctuation = true
      ∧ merge_fold plain_tok [("a", [1]), (" \t", [2])] = (["a", " \t"], [[1], [2]]) := by
  have h := claim9_empty_chunk plain_tok [("a", [1])] " \t" [2] rfl
  exact ⟨h.1, h.2.trans rfl⟩

/-- C1 (amended): in every language mode, concatenating the token groups
returned by `split_to_word_tokens`, in order, reproduces the input sequence
up to the tokens still buffered when the loop ends (no duplication, no
reordering); the buffered suffix — nonempty exactly when the completeness
test fails at the final token — is dropped, not returned. -/
theorem claim1_coverage (t : Tokenizer) (tokens : List Nat) :
    (t.split_to_word_tokens tokens).2.flatten
        ++ (split_unicode_fold t tokens).current_tokens = tokens := by
  have hu : (split_unicode_fold t tokens).word_tokens.flatten
      ++ (split_unicode_fold t tokens).current_tokens = tokens := by
    have h := split_unicode_foldl_flatten t (t.decode_with_timestamps tokens)
      tokens ⟨[], [], [], 0⟩
    simpa [split_unicode_fold] using h
  by_cases hl : t.language_code ∈ nospace_languages
  · simpa [Tokenizer.split_to_word_tokens, hl, Tokenizer.split_tokens_on_unicode] using hu
  · have hlen2 : (split_unicode_fold t tokens).word_tokens.length
        ≤ (split_unicode_fold t tokens).words.length :=
      le_of_eq (split_unicode_fold_lengths t tokens).symm
    have hzip : ((split_unicode_fold t tokens).words.zip
        (split_unicode_fold t tokens).word_tokens).map Prod.snd
        = (split_unicode_fold t tokens).word_tokens :=
      List.map_snd_zip _ _ hlen2
    simp only [Tokenizer.split_to_word_tokens, Tokenizer.split_tokens_on_spaces,
      Tokenizer.split_tokens_on_unicode]
    rw [if_neg (by simpa using hl), merge_fold_flatten, hzip]
    exact hu

/-- C1 counterexample: with an adapter for which token 2 alone decodes to an
incomplete character (`"�"`) while the pair `[1, 2]` decodes cleanly, the
completeness test fails at the final token and token 2 — still buffered when
input ends — is dropped: the returned groups concatenate to `[1]`, not
`[1, 2]`. -/
theorem claim1_counterexample :
    incomplete_tail_tok.split_to_word_tokens [1, 2] = (["a"], [[1]])
      ∧ (incomplete_tail_tok.split_to_word_tokens [1, 2]).2.flatten ≠ [1, 2] := by
  refine ⟨by decide, by decide⟩

theorem pyRound_intCast (n : ℤ) : pyRound (n : ℚ) = n := by
  unfold pyRound
  norm_num [Int.floor_intCast]

theorem pyRound_nonneg (q : ℚ) (h : 0 ≤ q) : 0 ≤ pyRound q := by
  simp only [pyRound]
  have hf : 0 ≤ ⌊q⌋ := Int.floor_nonneg.mpr h
  split
  · exact hf
  · split
    · omega
    · split <;> omega

theorem pyRound_le (q : ℚ) (N : ℤ) (h : q ≤ (N : ℚ)) : pyRound q ≤ N := by
  have hf : ⌊q⌋ ≤ N := by
    have := Int.floor_le_floor h
    simpa using this
  have key : (1/2 : ℚ) ≤ q - (⌊q⌋ : ℚ) → ⌊q⌋ + 1 ≤ N := by
    intro hr
    by_contra hc
    push_neg at hc
    have hNf : N = ⌊q⌋ := le_antisymm (Int.lt_add_one_iff.mp hc) hf
    have hqf : q ≤ (⌊q⌋ : ℚ) := by
      rw [hNf] at h
      exact h
    linarith
  simp only [pyRound]
  split
  · exact hf
  · next hr1 =>
    split
    · next hr2 => exact key (le_of_lt hr2)
    · split
      · exact hf
      · exact key (le_of_not_lt hr1)

theorem pad2_length_of_lt (k : ℕ) (h : k < 100) : (pad2 k).length = 2 := by
  revert h
  revert k
  decide

/-- C7 (amended): every timestamp literal is `"<|" ++ X.XX ++ "|>"` with a
two-digit fractional part.  On the encode side the value is
`round(t / 0.02) * 0.02`, a multiple of 0.02 within `[0, 30]`
(`2 * n` hundredths with `n ≤ 1500`).  On the decode side the value is
`(id - timestamp_begin) * 0.02`, a nonnegative multiple of 0.02 that lies
within `[0, 30]` exactly when `id ≤ timestamp_begin + 1500`. -/
theorem claim7_timestamp_literal_format :
    (∀ (t : Tokenizer) (q : ℚ), 0 ≤ q → q ≤ 30 →
      (pyRound (q / 0.02)).toNat ≤ 1500
        ∧ ((pyRound (q / 0.02)).toNat : ℤ) = pyRound (q / 0.02)
        ∧ t.timestamp_to_token q
            = .ok ("<|" ++ format_2f_hundredths (2 * (pyRound (q / 0.02)).toNat) ++ "|>")
        ∧ format_2f_hundredths (2 * (pyRound (q / 0.02)).toNat)
            = toString (2 * (pyRound (q / 0.02)).toNat / 100) ++ "."
              ++ pad2 (2 * (pyRound (q / 0.02)).toNat % 100)
        ∧ (pad2 (2 * (pyRound (q / 0.02)).toNat % 100)).length = 2)
    ∧ (∀ (t : Tokenizer) (id : Nat), t.timestamp_begin ≤ id →
      t.timestamp_literal id
          = "<|" ++ format_2f_hundredths (2 * (id - t.timestamp_begin)) ++ "|>"
        ∧ (pad2 (2 * (id - t.timestamp_begin) % 100)).length = 2
        ∧ (((id - t.timestamp_begin : ℕ) : ℚ) * 0.02 ≤ 30
            ↔ id ≤ t.timestamp_begin + 1500)) := by
  constructor
  · intro t q h0 h30
    have hdiv : q / (0.02 : ℚ) = 50 * q := by
      rw [show (0.02 : ℚ) = 50⁻¹ by norm_num, div_inv_eq_mul, mul_comm]
    have hub : q / (0.02 : ℚ) ≤ ((1500 : ℤ) : ℚ) := by
      rw [hdiv]
      push_cast
      linarith
    have hlb : (0 : ℚ) ≤ q / (0.02 : ℚ) := by
      rw [hdiv]
      linarith
    have hr_nonneg : 0 ≤ pyRound (q / 0.02) := pyRound_nonneg _ hlb
    have hr_le : pyRound (q / 0.02) ≤ 1500 := pyRound_le _ _ hub
    have hcast : ((pyRound (q / 0.02)).toNat : ℤ) = pyRound (q / 0.02) :=
      Int.toNat_of_nonneg hr_nonneg
    refine ⟨by omega, hcast, ?_, rfl, pad2_length_of_lt _ (Nat.mod_lt _ (by norm_num))⟩
    unfold Tokenizer.timestamp_to_token
    rw [if_neg (by push_neg; exact ⟨h0, h30⟩)]
  · intro t id hid
    refine ⟨rfl, pad2_length_of_lt _ (Nat.mod_lt _ (by norm_num)), ?_⟩
    have hq : (((id - t.timestamp_begin : ℕ) : ℚ) * 0.02 ≤ 30)
        ↔ ((id - t.timestamp_begin : ℕ) : ℚ) ≤ 1500 := by
      constructor <;> intro h <;> nlinarith
    rw [hq]
    rw [show ((1500 : ℚ)) = ((1500 : ℕ) : ℚ) by norm_num, Nat.cast_le]
    omega

/-- C7 counterexample: `decode_with_timestamps` applied to the single token
`3000` (with `timestamp_begin = 1000`) emits the literal `"<|40.00|>"`,
whose value `(3000 - timestamp_begin) * 0.02 = 40` lies outside `[0, 30]`. -/
theorem claim7_counterexample :
    plain_tok.decode_with_timestamps [3000] = "<|40.00|>"
      ∧ plain_tok.timestamp_literal 3000 = "<|40.00|>"
      ∧ ¬(((3000 - plain_tok.timestamp_begin : ℕ) : ℚ) * 0.02 ≤ 30) := by
  refine ⟨by decide, by decide, ?_⟩
  rw [show (3000 - plain_tok.timestamp_begin : ℕ) = 2000 from rfl]
  norm_num

/-- Witness for C7: both halves instantiated — the encode side at `q = 0.5`
(the literal is `"<|0.50|>"`), the decode side at token id `3000`. -/
theorem claim7_timestamp_literal_format_witness :
    plain_tok.timestamp_to_token 0.5 = .ok "<|0.50|>"
      ∧ plain_tok.timestamp_literal 3000
          = "<|" ++ format_2f_hundredths (2 * (3000 - plain_tok.timestamp_begin)) ++ "|>" := by
  constructor
  · have h := (claim7_timestamp_literal_format.1 plain_tok 0.5 (by norm_num) (by norm_num)).2.2.1
    have h25 : pyRound ((0.5 : ℚ) / 0.02) = 25 := by
      rw [show ((0.5 : ℚ) / 0.02) = ((25 : ℤ) : ℚ) by norm_num]
      exact pyRound_intCast 25
    rw [h25] at h
    exact h.trans (by rfl)
  · exact (claim7_timestamp_literal_format.2 plain_tok 3000 (by decide)).1
